import Mathlib

/-!
Verification of the prov-auditor skill core: a session-scoped
identifier-allocation and deduplication engine with an append-only,
partitioned CSV binding ledger (`__init__.py` of the skill).

The development shallowly embeds the Python source:
* object state (`ProvAuditor` fields plus the file system and the
  "bindings saved" log line) becomes `AuditorState`;
* dictionaries become association lists in insertion order;
* Python exceptions become explicit `PyError` results, with any state
  mutations performed before the raise kept (exception semantics);
* file-system failures (directory creation / write errors) are modelled
  by a boolean `fsOk` input to the flush operation;
* randomness (`uuid4().hex`, `random_delay`) and the two external
  command-line collaborators (`log2prov`, `provman_narrate_batch`) are
  modelled as explicit oracle inputs;
* `datetime.fromtimestamp` is modelled in UTC with whole seconds.
-/

/-! ### Decimal representation: `Nat.repr` is injective

Identifier strings embed a decimal counter (`f"{kind}/{sid}/{counter}"`),
so distinctness of identifiers reduces to injectivity of the decimal
rendering of `Nat` used by `toString`.
-/

/-- Decimal digit list of `n`, most significant first, by structural
well-founded recursion (no fuel). -/
def decDigits (n : Nat) : List Char :=
  if _h : n < 10 then [Nat.digitChar n]
  else decDigits (n / 10) ++ [Nat.digitChar (n % 10)]
  decreasing_by
    exact Nat.div_lt_self (by omega) (by omega)

/-- Value of a decimal digit character. -/
def digitVal (c : Char) : Nat := c.toNat - 48

/-- Evaluate a most-significant-first digit list back to a number. -/
def evalDec (l : List Char) : Nat := l.foldl (fun a c => 10 * a + digitVal c) 0

theorem digitVal_digitChar (d : Nat) (h : d < 10) : digitVal (Nat.digitChar d) = d := by
  interval_cases d <;> rfl

theorem evalDec_go (l : List Char) (a : Nat) :
    l.foldl (fun a c => 10 * a + digitVal c) a =
      l.foldl (fun a c => 10 * a + digitVal c) 0 + a * 10 ^ l.length := by
  induction l generalizing a with
  | nil => simp
  | cons c t ih =>
    simp only [List.foldl_cons, List.length_cons]
    rw [ih (10 * a + digitVal c), ih (10 * 0 + digitVal c)]
    ring

theorem evalDec_append (l₁ l₂ : List Char) :
    evalDec (l₁ ++ l₂) = evalDec l₁ * 10 ^ l₂.length + evalDec l₂ := by
  simp only [evalDec, List.foldl_append]
  rw [evalDec_go l₂ (List.foldl _ 0 l₁)]
  ring

theorem evalDec_decDigits (n : Nat) : evalDec (decDigits n) = n := by
  induction n using Nat.strong_induction_on with
  | _ n ih =>
    rw [decDigits]
    by_cases h : n < 10
    · simp only [h, dite_true]
      simp [evalDec, digitVal_digitChar n h]
    · simp only [h, dite_false]
      rw [evalDec_append]
      have hd : evalDec (decDigits (n / 10)) = n / 10 :=
        ih (n / 10) (Nat.div_lt_self (by omega) (by omega))
      simp only [List.length_singleton, hd]
      have : evalDec [Nat.digitChar (n % 10)] = n % 10 := by
        simp [evalDec, digitVal_digitChar (n % 10) (Nat.mod_lt n (by omega))]
      rw [this, pow_one]
      omega

theorem toDigitsCore_eq_decDigits :
    ∀ (f n : Nat) (l : List Char), n < f →
      Nat.toDigitsCore 10 f n l = decDigits n ++ l := by
  intro f
  induction f with
  | zero => intro n l h; omega
  | succ f ih =>
    intro n l h
    rw [Nat.toDigitsCore]
    by_cases h10 : n / 10 = 0
    · have hn : n < 10 := by
        rcases Nat.lt_or_ge n 10 with hc | hc
        · exact hc
        · exact absurd h10 (by
            have : 1 ≤ n / 10 := Nat.le_div_iff_mul_le (by omega) |>.mpr (by omega)
            omega)
      rw [decDigits]
      simp [h10, hn, Nat.mod_eq_of_lt hn]
    · have hlt : n / 10 < f := by
        have : n / 10 < n := Nat.div_lt_self (by omega) (by omega)
        omega
      have hn : ¬ n < 10 := by
        intro hc
        exact h10 (Nat.div_eq_of_lt hc)
      simp only [h10, if_false]
      rw [ih (n / 10) _ hlt]
      conv_rhs => rw [decDigits]
      simp [hn]

theorem toDigits_eq_decDigits (n : Nat) : Nat.toDigits 10 n = decDigits n := by
  rw [Nat.toDigits, toDigitsCore_eq_decDigits (n + 1) n [] (Nat.lt_succ_self n)]
  simp

theorem Nat.repr_injective : Function.Injective Nat.repr := by
  intro m n h
  have hd : decDigits m = decDigits n := by
    have := congrArg String.data h
    simpa [Nat.repr, List.asString, toDigits_eq_decDigits] using this
  calc m = evalDec (decDigits m) := (evalDec_decDigits m).symm
    _ = evalDec (decDigits n) := by rw [hd]
    _ = n := evalDec_decDigits n

/-! ### CSV row format

Models Python's `csv.writer` with the default dialect, as used by
`persist_bindings` and `get_csv_bindings_str`: fields joined by `,`,
rows terminated by `\r\n`, a field quoted (with `"` doubled) exactly
when it contains `,`, `"`, `\r` or `\n`, and a lone empty field written
as `""`.  A parser is defined in order to state the round-trip property
(§8 of the spec: rows read back equal the originals field for field).
-/

def csvNeedsQuote (f : List Char) : Bool :=
  f.any (fun c => c == ',' || c == '"' || c == '\r' || c == '\n')

def csvEscape (f : List Char) : List Char :=
  (f.map (fun c => if c = '"' then ['"', '"'] else [c])).flatten

def csvEncodeField (f : List Char) : List Char :=
  if csvNeedsQuote f then '"' :: (csvEscape f ++ ['"']) else f

def csvJoinFields : List (List Char) → List Char
  | [] => []
  | [f] => csvEncodeField f
  | f :: rest => csvEncodeField f ++ ',' :: csvJoinFields rest

def csvEncodeRow (r : List (List Char)) : List Char :=
  if r = [[]] then ['"', '"', '\r', '\n'] else csvJoinFields r ++ ['\r', '\n']

def csvEncodeRows (rs : List (List (List Char))) : List Char :=
  (rs.map csvEncodeRow).flatten

/-- The CSV text `csv.writer(f).writerows(rows)` produces. -/
def csvRowsString (rows : List (List String)) : String :=
  ⟨csvEncodeRows (rows.map (fun r => r.map String.data))⟩

def csvParseQuoted : Nat → List Char → List Char × List Char
  | 0, cs => ([], cs)
  | fuel + 1, cs =>
    match cs with
    | [] => ([], [])
    | c :: rest =>
      if c = '"' then
        if rest.head? = some '"' then
          let p := csvParseQuoted fuel rest.tail
          ('"' :: p.1, p.2)
        else ([], rest)
      else
        let p := csvParseQuoted fuel rest
        (c :: p.1, p.2)

def csvPlain (c : Char) : Bool := !(c == ',' || c == '\r')

def csvParseField (fuel : Nat) (cs : List Char) : List Char × List Char :=
  if cs.head? = some '"' then csvParseQuoted fuel cs.tail
  else (cs.takeWhile csvPlain, cs.dropWhile csvPlain)

def csvParseRow : Nat → List Char → List (List Char) × List Char
  | 0, cs => ([], cs)
  | fuel + 1, cs =>
    let p := csvParseField (fuel + 1) cs
    if p.2.head? = some ',' then
      let q := csvParseRow fuel p.2.tail
      (p.1 :: q.1, q.2)
    else if p.2.take 2 = ['\r', '\n'] then ([p.1], p.2.drop 2)
    else ([p.1], p.2)

def csvParseRows : Nat → List Char → List (List (List Char))
  | 0, _ => []
  | fuel + 1, cs =>
    if cs.isEmpty then []
    else if cs.take 2 = ['\r', '\n'] then [] :: csvParseRows fuel (cs.drop 2)
    else
      let p := csvParseRow (fuel + 1) cs
      p.1 :: csvParseRows fuel p.2

/-- Parse CSV text back into rows of fields. -/
def csvParse (s : String) : List (List String) :=
  (csvParseRows (s.data.length + 1) s.data).map (fun r => r.map (fun f => ⟨f⟩))

theorem stringMk_data (s : String) : (⟨s.data⟩ : String) = s := rfl

theorem csvEscape_nil : csvEscape [] = [] := rfl

theorem csvEscape_cons (c : Char) (f : List Char) :
    csvEscape (c :: f) = (if c = '"' then ['"', '"'] else [c]) ++ csvEscape f := by
  simp [csvEscape]

theorem csvEscape_of_no_quote (f : List Char) (h : '"' ∉ f) : csvEscape f = f := by
  induction f with
  | nil => rfl
  | cons c t ih =>
    rw [csvEscape_cons]
    have hc : c ≠ '"' := fun hcq => h (hcq ▸ List.mem_cons_self c t)
    rw [if_neg hc, ih (fun ht => h (List.mem_cons_of_mem c ht))]
    rfl

theorem not_mem_quote_of_no_need (f : List Char) (h : csvNeedsQuote f = false) : '"' ∉ f := by
  intro hm
  have := List.any_eq_false.mp h '"' hm
  simp at this

theorem csvEscape_length_le (f : List Char) :
    (csvEscape f).length ≤ (csvEncodeField f).length := by
  by_cases hq : csvNeedsQuote f = true
  · simp [csvEncodeField, hq]
    omega
  · have hq' := eq_false_of_ne_true hq
    rw [csvEncodeField, hq', if_neg (by simp), csvEscape_of_no_quote f (not_mem_quote_of_no_need f hq')]

/-- The character after an encoded field in a row: end of input, a comma,
or the `\r` of the row terminator. -/
def csvBreakOk (rest : List Char) : Prop :=
  rest = [] ∨ rest.head? = some ',' ∨ rest.head? = some '\r'

theorem csvBreakOk_head_ne_quote (rest : List Char) (h : csvBreakOk rest) :
    rest.head? ≠ some '"' := by
  rcases h with h | h | h <;> simp [h]

theorem csvParseQuoted_encode (f : List Char) :
    ∀ (fuel : Nat) (rest : List Char), (csvEscape f).length < fuel → rest.head? ≠ some '"' →
      csvParseQuoted fuel (csvEscape f ++ '"' :: rest) = (f, rest) := by
  induction f with
  | nil =>
    intro fuel rest hf hr
    cases fuel with
    | zero => omega
    | succ fuel =>
      rw [csvEscape_nil, List.nil_append, csvParseQuoted]
      simp [hr]
  | cons c f ih =>
    intro fuel rest hf hr
    by_cases hc : c = '"'
    · subst hc
      rw [csvEscape_cons, if_pos rfl] at hf ⊢
      cases fuel with
      | zero => simp at hf
      | succ fuel =>
        have hlen : (csvEscape f).length < fuel := by
          simp at hf
          omega
        have harr : (['"', '"'] ++ csvEscape f) ++ '"' :: rest =
            '"' :: '"' :: (csvEscape f ++ '"' :: rest) := by simp
        rw [harr, csvParseQuoted]
        simp [ih fuel rest hlen hr]
    · rw [csvEscape_cons, if_neg hc] at hf ⊢
      cases fuel with
      | zero => simp at hf
      | succ fuel =>
        have hlen : (csvEscape f).length < fuel := by
          simp at hf
          omega
        have harr : ([c] ++ csvEscape f) ++ '"' :: rest =
            c :: (csvEscape f ++ '"' :: rest) := by simp
        rw [harr, csvParseQuoted.eq_def]
        simp [hc, ih fuel rest hlen hr]

theorem csvPlain_of_no_need (f : List Char) (h : csvNeedsQuote f = false) :
    ∀ c ∈ f, csvPlain c = true := by
  intro c hc
  have := List.any_eq_false.mp h c hc
  simp [csvPlain]
  simp at this
  tauto

theorem csvTakeDrop_encode (f rest : List Char) (hq : csvNeedsQuote f = false)
    (hr : csvBreakOk rest) :
    (f ++ rest).takeWhile csvPlain = f ∧ (f ++ rest).dropWhile csvPlain = rest := by
  induction f with
  | nil =>
    rcases hr with h | h | h
    · simp [h]
    · cases rest with
      | nil => simp at h
      | cons x t =>
        simp at h
        subst h
        constructor <;> simp [List.takeWhile, List.dropWhile, csvPlain]
    · cases rest with
      | nil => simp at h
      | cons x t =>
        simp at h
        subst h
        constructor <;> simp [List.takeWhile, List.dropWhile, csvPlain]
  | cons c f ih =>
    have hc : csvPlain c = true :=
      csvPlain_of_no_need (c :: f) hq c (List.mem_cons_self c f)
    have hf : csvNeedsQuote f = false := by
      simp [csvNeedsQuote] at hq ⊢
      intro x hx
      exact hq.2 x hx
    have := ih hf
    constructor
    · rw [List.cons_append, List.takeWhile_cons, if_pos hc, this.1]
    · rw [List.cons_append, List.dropWhile_cons, if_pos hc, this.2]

theorem csvParseField_encode (f rest : List Char) (fuel : Nat)
    (hf : (csvEscape f).length < fuel) (hr : csvBreakOk rest) :
    csvParseField fuel (csvEncodeField f ++ rest) = (f, rest) := by
  by_cases hq : csvNeedsQuote f = true
  · rw [csvEncodeField, if_pos hq]
    have harr : ('"' :: (csvEscape f ++ ['"'])) ++ rest =
        '"' :: (csvEscape f ++ '"' :: rest) := by simp
    rw [harr, csvParseField]
    simp only [List.head?_cons, if_pos rfl, List.tail_cons]
    exact csvParseQuoted_encode f fuel rest hf (csvBreakOk_head_ne_quote rest hr)
  · have hq' := eq_false_of_ne_true hq
    rw [csvEncodeField, hq', if_neg (by simp)]
    have hne : (f ++ rest).head? ≠ some '"' := by
      cases f with
      | nil =>
        simp only [List.nil_append]
        exact csvBreakOk_head_ne_quote rest hr
      | cons c t =>
        have : '"' ∉ c :: t := not_mem_quote_of_no_need _ hq'
        simp only [List.cons_append, List.head?_cons, ne_eq, Option.some.injEq]
        intro hcq
        exact this (hcq ▸ List.mem_cons_self c t)
    rw [csvParseField, if_neg hne]
    have := csvTakeDrop_encode f rest hq' hr
    rw [this.1, this.2]

theorem csvJoinFields_two (f g : List Char) (t : List (List Char)) :
    csvJoinFields (f :: g :: t) = csvEncodeField f ++ ',' :: csvJoinFields (g :: t) := rfl

theorem csvParseRow_encode :
    ∀ (fs : List (List Char)) (rest : List Char) (fuel : Nat), fs ≠ [] →
      (csvJoinFields fs).length < fuel →
      csvParseRow fuel (csvJoinFields fs ++ '\r' :: '\n' :: rest) = (fs, rest) := by
  intro fs
  induction fs with
  | nil => intro _ _ h; exact absurd rfl h
  | cons f fs ih =>
    intro rest fuel _ hlen
    cases fuel with
    | zero => omega
    | succ fuel =>
      cases fs with
      | nil =>
        simp only [csvJoinFields] at hlen ⊢
        rw [csvParseRow]
        have hesc : (csvEscape f).length < fuel + 1 :=
          Nat.lt_of_le_of_lt (csvEscape_length_le f) hlen
        rw [csvParseField_encode f ('\r' :: '\n' :: rest) (fuel + 1) hesc
          (Or.inr (Or.inr rfl))]
        simp
      | cons g t =>
        rw [csvJoinFields_two] at hlen ⊢
        have harr : (csvEncodeField f ++ ',' :: csvJoinFields (g :: t)) ++ '\r' :: '\n' :: rest =
            csvEncodeField f ++ (',' :: (csvJoinFields (g :: t) ++ '\r' :: '\n' :: rest)) := by
          simp
        rw [harr, csvParseRow]
        have hesc : (csvEscape f).length < fuel + 1 := by
          have h1 := csvEscape_length_le f
          simp at hlen
          omega
        rw [csvParseField_encode f (',' :: (csvJoinFields (g :: t) ++ '\r' :: '\n' :: rest))
          (fuel + 1) hesc (Or.inr (Or.inl rfl))]
        have hlen2 : (csvJoinFields (g :: t)).length < fuel := by
          simp at hlen
          omega
        simp only [List.head?_cons, if_pos rfl, List.tail_cons]
        rw [ih (rest) fuel (by simp) hlen2]
        simp

theorem csvJoinFields_head (r : List (List Char)) (hne : r ≠ []) (hns : r ≠ [[]]) :
    ∃ c cs, csvJoinFields r = c :: cs ∧ c ≠ '\r' ∧ c ≠ '\n' := by
  cases r with
  | nil => exact absurd rfl hne
  | cons f fs =>
    cases f with
    | nil =>
      cases fs with
      | nil => exact absurd rfl hns
      | cons g t =>
        refine ⟨',', csvJoinFields (g :: t), ?_, by decide, by decide⟩
        rw [csvJoinFields_two]
        rfl
    | cons c f' =>
      by_cases hq : csvNeedsQuote (c :: f') = true
      · have hhead : ∃ cs, csvEncodeField (c :: f') = '"' :: cs := by
          rw [csvEncodeField, if_pos hq]
          exact ⟨_, rfl⟩
        obtain ⟨cs, hcs⟩ := hhead
        cases fs with
        | nil =>
          exact ⟨'"', cs, by simpa [csvJoinFields] using hcs, by decide, by decide⟩
        | cons g t =>
          rw [csvJoinFields_two, hcs]
          exact ⟨'"', cs ++ ',' :: csvJoinFields (g :: t), rfl, by decide, by decide⟩
      · have hq' := eq_false_of_ne_true hq
        have hplain := csvPlain_of_no_need (c :: f') hq' c (List.mem_cons_self c f')
        have hcr : c ≠ '\r' ∧ c ≠ '\n' := by
          simp [csvNeedsQuote] at hq'
          tauto
        have henc : csvEncodeField (c :: f') = c :: f' := by
          rw [csvEncodeField, hq', if_neg (by simp)]
        cases fs with
        | nil =>
          exact ⟨c, f', by simpa [csvJoinFields] using henc, hcr.1, hcr.2⟩
        | cons g t =>
          rw [csvJoinFields_two, henc]
          exact ⟨c, f' ++ ',' :: csvJoinFields (g :: t), rfl, hcr.1, hcr.2⟩

theorem csvParseRows_encode :
    ∀ (rs : List (List (List Char))) (fuel : Nat),
      (csvEncodeRows rs).length < fuel →
      csvParseRows fuel (csvEncodeRows rs) = rs := by
  intro rs
  induction rs with
  | nil =>
    intro fuel hlen
    cases fuel with
    | zero => omega
    | succ fuel =>
      rw [csvParseRows]
      simp [csvEncodeRows]
  | cons r rs ih =>
    intro fuel hlen
    cases fuel with
    | zero => omega
    | succ fuel =>
      by_cases hs : r = [[]]
      · subst hs
        have hinput : csvEncodeRows ([[]] :: rs) =
            '"' :: '"' :: '\r' :: '\n' :: csvEncodeRows rs := by
          simp [csvEncodeRows, csvEncodeRow]
        rw [hinput] at hlen ⊢
        have hrec : (csvEncodeRows rs).length < fuel := by
          simp at hlen
          omega
        rw [csvParseRows]
        simp [csvParseRow, csvParseField, csvParseQuoted, ih fuel hrec]
      · by_cases hn : r = []
        · subst hn
          have hinput : csvEncodeRows ([] :: rs) =
              '\r' :: '\n' :: csvEncodeRows rs := by
            simp [csvEncodeRows, csvEncodeRow, csvJoinFields]
          rw [hinput] at hlen ⊢
          have hrec : (csvEncodeRows rs).length < fuel := by
            simp at hlen
            omega
          rw [csvParseRows]
          rw [if_neg (by simp), if_pos (by simp)]
          simp [ih fuel hrec]
        · obtain ⟨c, cs, hjf, hcr, _⟩ := csvJoinFields_head r hn hs
          have hinput : csvEncodeRows (r :: rs) =
              csvJoinFields r ++ '\r' :: '\n' :: csvEncodeRows rs := by
            simp [csvEncodeRows, csvEncodeRow, hs]
          rw [hinput] at hlen ⊢
          have hlen1 : (csvJoinFields r).length < fuel + 1 := by
            simp at hlen
            omega
          have hrec : (csvEncodeRows rs).length < fuel := by
            rw [hjf] at hlen
            simp at hlen
            omega
          rw [csvParseRows]
          rw [if_neg (by rw [hjf]; simp)]
          rw [if_neg (by
            rw [hjf]
            simp only [List.cons_append, List.take_succ_cons]
            intro hcon
            exact hcr (List.cons.inj hcon).1)]
          rw [csvParseRow_encode r (csvEncodeRows rs) (fuel + 1) hn hlen1]
          simp [ih fuel hrec]

/-- Round trip: parsing back the CSV text written for `rows` recovers
`rows` exactly, field for field. -/
theorem csvParse_csvRowsString (rows : List (List String)) :
    csvParse (csvRowsString rows) = rows := by
  show (csvParseRows ((csvRowsString rows).data.length + 1) (csvRowsString rows).data).map _
      = rows
  rw [show (csvRowsString rows).data
        = csvEncodeRows (rows.map (fun r => r.map String.data)) from rfl]
  rw [csvParseRows_encode (rows.map (fun r => r.map String.data)) _ (Nat.lt_succ_self _)]
  simp [List.map_map, Function.comp_def, stringMk_data]

theorem csvEncodeRows_append (a b : List (List (List Char))) :
    csvEncodeRows (a ++ b) = csvEncodeRows a ++ csvEncodeRows b := by
  simp [csvEncodeRows]

theorem csvRowsString_append (a b : List (List String)) :
    csvRowsString (a ++ b) = csvRowsString a ++ csvRowsString b := by
  show csvRowsString (a ++ b) = String.mk (csvRowsString a).data ++ String.mk (csvRowsString b).data
  rw [csvRowsString, csvRowsString, csvRowsString]
  show String.mk _ = String.mk _
  rw [List.map_append, csvEncodeRows_append]

/-! ### Calendar helpers

`persist_bindings` derives the storage partition from
`datetime.fromtimestamp(session.touch_time)` and `handler_log_intent` /
`handler_log_bindings` render `isoformat()` timestamps.  Modelled in UTC
with whole seconds (the local-timezone offset and fractional seconds do
not affect any property below).
-/

/-- Gregorian civil date (year, month, day) from days since 1970-01-01. -/
def civilFromDays (z0 : Nat) : Nat × Nat × Nat :=
  let z := z0 + 719468
  let era := z / 146097
  let doe := z % 146097
  let yoe := (doe - doe / 1460 + doe / 36524 - doe / 146097) / 365
  let y := yoe + era * 400
  let doy := doe - (365 * yoe + yoe / 4 - yoe / 100)
  let mp := (5 * doy + 2) / 153
  let d := doy - (153 * mp + 2) / 5 + 1
  let m := if mp < 10 then mp + 3 else mp - 9
  (if m ≤ 2 then y + 1 else y, m, d)

def pad2 (n : Nat) : String := if n < 10 then "0" ++ Nat.repr n else Nat.repr n

def pad4 (n : Nat) : String :=
  (if n < 10 then "000" else if n < 100 then "00" else if n < 1000 then "0" else "")
    ++ Nat.repr n

/-- `datetime.fromtimestamp(ts).isoformat()`. -/
def isoTimestamp (ts : Nat) : String :=
  let ymd := civilFromDays (ts / 86400)
  let secs := ts % 86400
  pad4 ymd.1 ++ "-" ++ pad2 ymd.2.1 ++ "-" ++ pad2 ymd.2.2 ++ "T" ++
    pad2 (secs / 3600) ++ ":" ++ pad2 (secs % 3600 / 60) ++ ":" ++ pad2 (secs % 60)

/-! ### Data model -/

/-- A host session.  `oid` models Python object identity:
`check_active_session` compares sessions with `is not`, so two
equal-valued `Session` objects are still distinct sessions. -/
structure Session where
  session_id : String
  touch_time : Nat
  oid : Nat
deriving DecidableEq, Repr

/-- `candidate is tracked` for `tracked : Optional[Session]`. -/
def sameObject : Option Session → Session → Bool
  | none, _ => false
  | some t, h => t.oid == h.oid

/-- `IntentMatchingBinding` namedtuple. -/
structure IntentMatchingBinding where
  isA : String
  user : String
  assistant : String
  utterance : String
  value : String
  intent : String
  intent_type : String
  skill : String
  intent_data : String
  timestamp : String
deriving DecidableEq, Repr

/-- `UserDatapointBinding` namedtuple. -/
structure UserDatapointBinding where
  isA : String
  user : String
  user_datapoint : String
  data_type : String
  value : String
deriving DecidableEq, Repr

/-- `SkillInvocationBinding` namedtuple. -/
structure SkillInvocationBinding where
  isA : String
  skill : String
  service : String
  intent : Option String
  user_ip : Option String
  user_datapoint : Option String
  request : String
  req_type : String
  req_data : Option String
  req_timestamp : String
  response : String
  res_type : String
  res_data : Option String
  res_timestamp : String
  service_call : String
deriving DecidableEq, Repr

inductive Binding where
  | intentMatching : IntentMatchingBinding → Binding
  | userDatapoint : UserDatapointBinding → Binding
  | skillInvocation : SkillInvocationBinding → Binding
deriving DecidableEq, Repr

/-- `csv.writer` renders `None` as the empty field. -/
def optStr : Option String → String
  | none => ""
  | some v => v

/-- The CSV row of a binding: the namedtuple fields in declaration order. -/
def bindingToRow : Binding → List String
  | .intentMatching b =>
    [b.isA, b.user, b.assistant, b.utterance, b.value, b.intent, b.intent_type,
     b.skill, b.intent_data, b.timestamp]
  | .userDatapoint b => [b.isA, b.user, b.user_datapoint, b.data_type, b.value]
  | .skillInvocation b =>
    [b.isA, b.skill, b.service, optStr b.intent, optStr b.user_ip,
     optStr b.user_datapoint, b.request, b.req_type, optStr b.req_data,
     b.req_timestamp, b.response, b.res_type, optStr b.res_data,
     b.res_timestamp, b.service_call]

inductive PyError where
  | attributeError
  | typeError
  | keyError
  | valueError
  | storageError
deriving DecidableEq, Repr

/-- Association-list lookup (Python `dict` access / `.get`). -/
def lookupA {α β : Type} [DecidableEq α] : List (α × β) → α → Option β
  | [], _ => none
  | (k, v) :: rest, key => if key = k then some v else lookupA rest key

/-- Association-list update (Python `dict[key] = value`, preserving
insertion order and appending new keys at the end). -/
def setA {α β : Type} [DecidableEq α] : List (α × β) → α → β → List (α × β)
  | [], key, v => [(key, v)]
  | (k, w) :: rest, key, v =>
    if key = k then (k, v) :: rest else (k, w) :: setA rest key v

/-- Append `content` to the file at `path`, creating it if absent
(`file_path.open("a")`). -/
def appendFile : List (String × String) → String → String → List (String × String)
  | [], path, content => [(path, content)]
  | (q, d) :: rest, path, content =>
    if path = q then (q, d ++ content) :: rest
    else (q, d) :: appendFile rest path content

/-- The `ProvAuditor` object state together with the modelled file
system (`store`: csv files under the bindings root, in creation order,
which is also the order `glob` enumerates them in the model) and the
"%d bindings saved" log lines (`savedLog`). -/
structure AuditorState where
  identity_uuid : String
  bindings : List Binding
  session : Option Session
  id_counters : Option (List (String × Nat))
  utterance_id_cache : List (List String × String)
  geolocation_id_cache : List ((String × String) × String)
  intent_id_cache : List (String × String)
  store : List (String × String)
  savedLog : List String
deriving DecidableEq, Repr

/-- The state `__init__` builds (no session, counters `None`, all caches
empty, nothing on disk). -/
def initialState (identity_uuid : String) : AuditorState :=
  ⟨identity_uuid, [], none, none, [], [], [], [], []⟩

/-! ### Operations -/

/-- `<root>/<year>/<month>/<day>/<session_id>.csv` for the session. -/
def filePathOf (sess : Session) : String :=
  let ymd := civilFromDays (sess.touch_time / 86400)
  "bindings/" ++ Nat.repr ymd.1 ++ "/" ++ Nat.repr ymd.2.1 ++ "/" ++ Nat.repr ymd.2.2
    ++ "/" ++ sess.session_id ++ ".csv"

/-- `ProvAuditor.persist_bindings`.  `fsOk = false` models a directory
creation or file write failure (the Python code would raise an
`OSError`); with no previous session the attribute access
`self.session.touch_time` raises `AttributeError`. -/
def persist_bindings (fsOk : Bool) (s : AuditorState) : Option PyError × AuditorState :=
  if s.bindings = [] then (none, s)
  else
    match s.session with
    | none => (some .attributeError, s)
    | some sess =>
      if fsOk then
        let fp := filePathOf sess
        (none, { s with
          store := appendFile s.store fp (csvRowsString (s.bindings.map bindingToRow)),
          savedLog := s.savedLog ++
            [Nat.repr s.bindings.length ++ " bindings saved to " ++ fp],
          bindings := [] })
      else (some .storageError, s)

/-- `ProvAuditor.check_active_session`; `host` is what
`SessionManager.get()` returns. -/
def check_active_session (host : Session) (fsOk : Bool) (s : AuditorState) :
    Option PyError × AuditorState :=
  if sameObject s.session host then (none, s)
  else
    match persist_bindings fsOk s with
    | (some e, s1) => (some e, s1)
    | (none, s1) =>
      (none, { s1 with
        id_counters := some [],
        utterance_id_cache := [],
        session := some host })

/-- `ProvAuditor.get_id`.  With `id_counters = None` the subscript
raises `TypeError`; with no session the f-string raises
`AttributeError` (after the counter was already bumped, as in Python). -/
def get_id (id_kind : String) (s : AuditorState) : Except PyError String × AuditorState :=
  match s.id_counters with
  | none => (.error .typeError, s)
  | some counters =>
    let n := (lookupA counters id_kind).getD 0 + 1
    let s1 := { s with id_counters := some (setA counters id_kind n) }
    match s1.session with
    | none => (.error .attributeError, s1)
    | some sess =>
      (.ok (id_kind ++ "/" ++ sess.session_id ++ "/" ++ Nat.repr n), s1)

/-- `ProvAuditor.get_user_id`: a constant, whatever the state. -/
def get_user_id (_s : AuditorState) : String := "users/3259"

def get_user_data_id (s : AuditorState) (data_id : String) : String :=
  get_user_id s ++ "/" ++ data_id

/-- `ProvAuditor.get_geolocation_id`.  Coordinates are modelled by their
decoded message values with exact equality, as in the Python `dict`
keyed by the `(latitude, longitude)` tuple. -/
def get_geolocation_id (latitude longitude : String) (s : AuditorState) :
    String × AuditorState :=
  match lookupA s.geolocation_id_cache (latitude, longitude) with
  | some geolocation_id => (geolocation_id, s)
  | none =>
    let geolocation_id :=
      get_user_data_id s "geolocation" ++ "/" ++ Nat.repr (s.geolocation_id_cache.length + 1)
    (geolocation_id,
     { s with
       geolocation_id_cache :=
         setA s.geolocation_id_cache (latitude, longitude) geolocation_id,
       bindings := s.bindings ++ [Binding.userDatapoint
         ⟨"user_datapoint", get_user_id s, geolocation_id, "UserGeoLocation",
          latitude ++ "," ++ longitude⟩] })

/-- `ProvAuditor.handler_utterance` for a `recognizer_loop:utterance`
notification carrying `utterances`. -/
def handler_utterance (host : Session) (fsOk : Bool) (utterances : List String)
    (s : AuditorState) : Option PyError × AuditorState :=
  match check_active_session host fsOk s with
  | (some e, s1) => (some e, s1)
  | (none, s1) =>
    match get_id "utterance" s1 with
    | (.error e, s2) => (some e, s2)
    | (.ok utterance_id, s2) =>
      (none, { s2 with
        utterance_id_cache := setA s2.utterance_id_cache utterances utterance_id })

/-- The deserialized intent message `handler_log_intent` receives:
`msg_type` is `"<skill_id>:<intent_type>"`, `extra` holds the remaining
payload entries with their values already serialized. -/
structure IntentMessage where
  timestamp : Nat
  msg_type : String
  utterance : String
  utterances : List String
  extra : List (String × String)
deriving DecidableEq, Repr

/-- Python `del d[k]` on the payload dictionary. -/
def removeKey (l : List (String × String)) (k : String) : List (String × String) :=
  l.filter (fun kv => !(kv.1 == k))

/-- `json.dumps` of the pruned payload (values pre-serialized). -/
def jsonObj (l : List (String × String)) : String :=
  "\x7b" ++ String.intercalate ", " (l.map (fun kv => "\"" ++ kv.1 ++ "\": " ++ kv.2))
    ++ "\x7d"

/-- `ProvAuditor.handler_log_intent`.  No session check happens here:
`get_id` is called directly, and the utterance-cache lookup can raise
`KeyError` after the counter and intent cache were already updated. -/
def handler_log_intent (msg : IntentMessage) (s : AuditorState) :
    Option PyError × AuditorState :=
  match msg.msg_type.splitOn ":" with
  | [skill_id, intent_type] =>
    (match get_id "intent" s with
     | (.error e, s1) => (some e, s1)
     | (.ok intent_id, s1) =>
       let s2 := { s1 with intent_id_cache := setA s1.intent_id_cache skill_id intent_id }
       let intent_data := removeKey (removeKey msg.extra "intent_type") "__tags__"
       match lookupA s2.utterance_id_cache msg.utterances with
       | none => (some .keyError, s2)
       | some utterance_id =>
         (none, { s2 with bindings := s2.bindings ++ [Binding.intentMatching
           ⟨"intent_matching", get_user_id s2, s2.identity_uuid, utterance_id,
            msg.utterance, intent_id, skill_id ++ "/" ++ intent_type, skill_id,
            jsonObj intent_data, isoTimestamp msg.timestamp⟩] }))
  | _ => (some .valueError, s)

/-- The `skill.prov_auditor.log_bindings` message payload. -/
structure SkillMessage where
  latitude : String
  longitude : String
  sender : String
  service : String
  timestamp : Nat
deriving DecidableEq, Repr

/-- `ProvAuditor.handler_log_bindings`.  `reqHex`, `resHex`, `actHex`
model the three `uuid4().hex` draws and `delaySec` the random response
delay; no session check happens here either. -/
def handler_log_bindings (msg : SkillMessage) (reqHex resHex actHex : String)
    (delaySec : Nat) (s : AuditorState) : AuditorState :=
  let skill_id := msg.sender
  let p := get_geolocation_id msg.latitude msg.longitude s
  { p.2 with bindings := p.2.bindings ++ [Binding.skillInvocation
      ⟨"skill_invocation", skill_id, msg.service.drop 8,
       lookupA s.intent_id_cache skill_id, none, some p.1,
       "req/" ++ reqHex, "APIRequest", none, isoTimestamp msg.timestamp,
       "res/" ++ resHex, "APIResponse", none, isoTimestamp (msg.timestamp + delaySec),
       "act/" ++ actHex⟩] }

/-- `ProvAuditor.shutdown`: one final `persist_bindings`. -/
def shutdown (fsOk : Bool) (s : AuditorState) : Option PyError × AuditorState :=
  persist_bindings fsOk s

/-- `ProvAuditor.get_csv_bindings_str`. -/
def get_csv_bindings_str (s : AuditorState) : String :=
  csvRowsString (s.bindings.map bindingToRow)

/-- `ProvAuditor.collect_bindings_lines`: every stored csv file's
content in order, then the in-memory buffer. -/
def collect_bindings_lines (s : AuditorState) : String :=
  (s.store.foldl (fun acc f => acc ++ f.2) "") ++
    (if s.bindings = [] then "" else get_csv_bindings_str s)

/-- The two external collaborators, as oracles: `log2prov` and the
narrative text `provman_narrate_batch` returns for the explanation
plan. -/
structure ExtTools where
  log2prov : String → String
  narrate : String → String

/-- A record of each external-process invocation. -/
inductive ToolCall where
  | expandCall : String → ToolCall
  | narrateCall : String → ToolCall
deriving DecidableEq, Repr

/-- `ProvAuditor.expand_provenance`: collects all binding lines and
hands them to `log2prov`, recording the invocation. -/
def expand_provenance (tools : ExtTools) (s : AuditorState) : String × List ToolCall :=
  let binding_lines := collect_bindings_lines s
  (tools.log2prov binding_lines, [ToolCall.expandCall binding_lines])

/-- Python `str.split(sep)` (non-overlapping occurrences, scanned left
to right, empty pieces kept), by fuel-bounded structural recursion so
that it evaluates. -/
def splitSepGo (sep : List Char) : Nat → List Char → List Char → List (List Char)
  | 0, acc, cs => [acc.reverse ++ cs]
  | fuel + 1, acc, cs =>
    if sep.isPrefixOf cs then
      acc.reverse :: splitSepGo sep fuel [] (cs.drop sep.length)
    else
      match cs with
      | [] => [acc.reverse]
      | c :: rest => splitSepGo sep fuel (c :: acc) rest

def pySplit (s sep : String) : List String :=
  (splitSepGo sep.data (s.data.length + 1) [] s.data).map (fun l => ⟨l⟩)

/-- Python `str.strip()`: whitespace removed from both ends. -/
def pyStrip (s : String) : String :=
  ⟨((s.data.dropWhile Char.isWhitespace).reverse.dropWhile Char.isWhitespace).reverse⟩

/-- `ProvAuditor.generate_narratives`: expansion, narration, then the
split of the narrative into trimmed nonempty paragraphs. -/
def generate_narratives (tools : ExtTools) (s : AuditorState) :
    List String × List ToolCall :=
  let p := expand_provenance tools s
  let narrativeText := tools.narrate p.1
  let sentences :=
    ((pySplit narrativeText "\n\n").map pyStrip).filter (fun x => x.length != 0)
  (sentences, p.2 ++ [ToolCall.narrateCall p.1])

/-- `ProvAuditor.handle_auditor_prov`: the list of spoken dialog lines
together with the external invocations performed. -/
def handle_auditor_prov (tools : ExtTools) (s : AuditorState) :
    List String × List ToolCall :=
  let p := generate_narratives tools s
  if p.1 ≠ [] then p else (["No data was recorded in my log"], p.2)

/-! ### Helper lemmas on the embedded operations -/

theorem lookupA_setA_self {α β : Type} [DecidableEq α] (l : List (α × β)) (k : α) (v : β) :
    lookupA (setA l k v) k = some v := by
  induction l with
  | nil => simp [setA, lookupA]
  | cons kv rest ih =>
    obtain ⟨q, w⟩ := kv
    by_cases h : k = q
    · subst h
      simp [setA, lookupA]
    · simp [setA, lookupA, h, ih]

theorem mem_setA {α β : Type} [DecidableEq α] (l : List (α × β)) (k : α) (v : β)
    (kv : α × β) (h : kv ∈ setA l k v) : kv ∈ l ∨ kv = (k, v) := by
  induction l with
  | nil =>
    simp [setA] at h
    exact Or.inr h
  | cons hd rest ih =>
    obtain ⟨q, w⟩ := hd
    by_cases hk : k = q
    · subst hk
      simp [setA] at h
      rcases h with h | h
      · exact Or.inr (by simp [h])
      · exact Or.inl (List.mem_cons_of_mem _ h)
    · simp [setA, hk] at h
      rcases h with h | h
      · exact Or.inl (by simp [h])
      · rcases ih h with h' | h'
        · exact Or.inl (List.mem_cons_of_mem _ h')
        · exact Or.inr h'

theorem get_id_ok (k : String) (s : AuditorState) (cs : List (String × Nat)) (sess : Session)
    (hc : s.id_counters = some cs) (hs : s.session = some sess) :
    get_id k s =
      (.ok (k ++ "/" ++ sess.session_id ++ "/" ++ Nat.repr ((lookupA cs k).getD 0 + 1)),
       { s with id_counters := some (setA cs k ((lookupA cs k).getD 0 + 1)) }) := by
  unfold get_id
  rw [hc]
  simp [hs]

/-! ### The identifier allocator (`get_id`) iterated -/

/-- `n` successive `get_id` calls of one kind, returning the identifiers
issued in order. -/
def allocN (id_kind : String) : Nat → AuditorState → Except PyError (List String) × AuditorState
  | 0, s => (.ok [], s)
  | n + 1, s =>
    match get_id id_kind s with
    | (.error e, s1) => (.error e, s1)
    | (.ok i, s1) =>
      match allocN id_kind n s1 with
      | (.error e, s2) => (.error e, s2)
      | (.ok ids, s2) => (.ok (i :: ids), s2)

theorem allocN_spec (k : String) (sess : Session) :
    ∀ (n : Nat) (s : AuditorState) (cs : List (String × Nat)),
      s.session = some sess → s.id_counters = some cs →
      ∃ s', allocN k n s =
        (.ok ((List.range n).map (fun i =>
          k ++ "/" ++ sess.session_id ++ "/" ++ Nat.repr ((lookupA cs k).getD 0 + i + 1))), s') := by
  intro n
  induction n with
  | zero => intro s cs _ _; exact ⟨s, rfl⟩
  | succ n ih =>
    intro s cs hs hc
    rw [allocN, get_id_ok k s cs sess hc hs]
    set c := (lookupA cs k).getD 0 with hcdef
    have hs1 : ({ s with id_counters := some (setA cs k (c + 1)) } :
        AuditorState).session = some sess := hs
    have hc1 : ({ s with id_counters := some (setA cs k (c + 1)) } :
        AuditorState).id_counters = some (setA cs k (c + 1)) := rfl
    obtain ⟨s', hrec⟩ := ih _ (setA cs k (c + 1)) hs1 hc1
    rw [lookupA_setA_self] at hrec
    simp only [Option.getD_some] at hrec
    refine ⟨s', ?_⟩
    dsimp only
    rw [hrec]
    have hlist : (List.range (n + 1)).map
          (fun i => k ++ "/" ++ sess.session_id ++ "/" ++ Nat.repr (c + i + 1))
        = (k ++ "/" ++ sess.session_id ++ "/" ++ Nat.repr (c + 1)) ::
          (List.range n).map
            (fun i => k ++ "/" ++ sess.session_id ++ "/" ++ Nat.repr (c + 1 + i + 1)) := by
      rw [List.range_succ_eq_map, List.map_cons, List.map_map]
      refine congrArg₂ List.cons ?_ ?_
      · simp
      · apply List.map_congr_left
        intro i _
        simp only [Function.comp_apply]
        have h2 : c + (i + 1) + 1 = c + 1 + i + 1 := by omega
        rw [h2]
    rw [hlist]

theorem append_repr_inj (pre : String) : Function.Injective (fun n => pre ++ Nat.repr n) := by
  intro a b h
  have hd := congrArg String.data h
  simp only [String.data_append] at hd
  have := List.append_cancel_left hd
  exact Nat.repr_injective (String.ext this)

/-- C1: with the tracked session `sess` and the per-session counter for
kind `k` at 0 (its reset value), `n` successive allocations of kind `k`
yield exactly the identifiers `k/sess/1 … k/sess/n`, a contiguous
ordinal sequence starting at 1, pairwise distinct. -/
theorem c1_identifier_sequence (k : String) (n : Nat) (s : AuditorState)
    (sess : Session) (cs : List (String × Nat))
    (hs : s.session = some sess) (hc : s.id_counters = some cs)
    (h0 : (lookupA cs k).getD 0 = 0) :
    ∃ s', allocN k n s =
        (.ok ((List.range n).map
          (fun i => k ++ "/" ++ sess.session_id ++ "/" ++ Nat.repr (i + 1))), s')
      ∧ ((List.range n).map
          (fun i => k ++ "/" ++ sess.session_id ++ "/" ++ Nat.repr (i + 1))).Nodup := by
  obtain ⟨s', hrun⟩ := allocN_spec k sess n s cs hs hc
  rw [h0] at hrun
  simp only [Nat.zero_add] at hrun
  refine ⟨s', ?_, ?_⟩
  · exact hrun
  · apply List.Nodup.map _ (List.nodup_range n)
    intro a b hab
    have : ((k ++ "/" ++ sess.session_id ++ "/") ++ Nat.repr (a + 1))
        = ((k ++ "/" ++ sess.session_id ++ "/") ++ Nat.repr (b + 1)) := by
      simpa [String.append_assoc] using hab
    have := append_repr_inj (k ++ "/" ++ sess.session_id ++ "/") this
    omega

/-- C1 witness: three allocations of kind `intent` under session `S`
from a freshly reset counter map yield `intent/S/1`, `intent/S/2`,
`intent/S/3`, pairwise distinct. -/
theorem c1_identifier_sequence_witness :
    ∃ s', allocN "intent" 3
        { initialState "mycroft" with session := some ⟨"S", 0, 0⟩, id_counters := some [] }
        = (.ok ["intent/S/1", "intent/S/2", "intent/S/3"], s')
      ∧ (["intent/S/1", "intent/S/2", "intent/S/3"] : List String).Nodup := by
  have h := c1_identifier_sequence "intent" 3
    { initialState "mycroft" with session := some ⟨"S", 0, 0⟩, id_counters := some [] }
    ⟨"S", 0, 0⟩ [] rfl rfl rfl
  obtain ⟨s', h1, h2⟩ := h
  refine ⟨s', ?_, ?_⟩
  · rw [h1]
    rfl
  · exact h2

/-! ### Geolocation deduplication -/

/-- `n + 1` successive resolutions of the same coordinate pair,
returning the last result. -/
def resolveGeoTimes (lat lon : String) : Nat → AuditorState → String × AuditorState
  | 0, s => get_geolocation_id lat lon s
  | n + 1, s => resolveGeoTimes lat lon n (get_geolocation_id lat lon s).2

theorem get_geolocation_id_fixpoint (lat lon : String) (s : AuditorState) :
    get_geolocation_id lat lon (get_geolocation_id lat lon s).2
      = get_geolocation_id lat lon s := by
  unfold get_geolocation_id
  cases hl : lookupA s.geolocation_id_cache (lat, lon) with
  | some g => simp [hl]
  | none =>
    simp only [hl]
    rw [lookupA_setA_self]

theorem lookupA_setA_ne {α β : Type} [DecidableEq α] (l : List (α × β)) (k k2 : α)
    (v : β) (h : k2 ≠ k) : lookupA (setA l k v) k2 = lookupA l k2 := by
  induction l with
  | nil => simp [setA, lookupA, h]
  | cons hd rest ih =>
    obtain ⟨q, w⟩ := hd
    by_cases hk : k = q
    · subst hk
      simp only [setA, if_pos rfl]
      simp [lookupA, h]
    · simp only [setA, if_neg hk]
      by_cases hq : k2 = q
      · simp [lookupA, hq]
      · simp [lookupA, hq, ih]

theorem resolveGeoTimes_eq (lat lon : String) :
    ∀ (n : Nat) (s : AuditorState),
      resolveGeoTimes lat lon n s = get_geolocation_id lat lon s := by
  intro n
  induction n with
  | zero => intro s; rfl
  | succ n ih =>
    intro s
    show resolveGeoTimes lat lon n (get_geolocation_id lat lon s).2 = _
    rw [ih, get_geolocation_id_fixpoint]

/-- C3: resolving a coordinate pair appends exactly one
`user_datapoint` binding on the first resolution (and none when the
pair is already cached); any number of further resolutions of the same
pair return the identical identifier without changing the state at all;
and resolving a different pair never disturbs this pair's cache entry,
so the identifier stays stable for the process lifetime. -/
theorem c3_geolocation_dedup (lat lon : String) (s : AuditorState) :
    (lookupA s.geolocation_id_cache (lat, lon) = none →
      (get_geolocation_id lat lon s).2.bindings
        = s.bindings ++ [Binding.userDatapoint
            ⟨"user_datapoint", "users/3259", (get_geolocation_id lat lon s).1,
             "UserGeoLocation", lat ++ "," ++ lon⟩])
  ∧ (∀ g, lookupA s.geolocation_id_cache (lat, lon) = some g →
      get_geolocation_id lat lon s = (g, s))
  ∧ (∀ n, resolveGeoTimes lat lon n s = get_geolocation_id lat lon s)
  ∧ (∀ lat2 lon2, (lat2, lon2) ≠ (lat, lon) →
      lookupA (get_geolocation_id lat2 lon2 s).2.geolocation_id_cache (lat, lon)
        = lookupA s.geolocation_id_cache (lat, lon)) := by
  refine ⟨?_, ?_, ?_, ?_⟩
  · intro hl
    unfold get_geolocation_id
    simp [hl, get_user_id]
  · intro g hl
    unfold get_geolocation_id
    simp [hl]
  · exact fun n => resolveGeoTimes_eq lat lon n s
  · intro lat2 lon2 hne
    unfold get_geolocation_id
    cases hl : lookupA s.geolocation_id_cache (lat2, lon2) with
    | some g => rfl
    | none =>
      show lookupA (setA s.geolocation_id_cache (lat2, lon2) _) (lat, lon) = _
      exact lookupA_setA_ne _ _ _ _ hne.symm

/-- C3 witness: from a fresh state, resolving `(45.47885, 133.42825)`
appends exactly one `user_datapoint` binding, and five further
resolutions return the identical identifier with no further change. -/
theorem c3_geolocation_dedup_witness :
    (get_geolocation_id "45.47885" "133.42825" (initialState "mycroft")).2.bindings
      = [Binding.userDatapoint
          ⟨"user_datapoint", "users/3259",
           (get_geolocation_id "45.47885" "133.42825" (initialState "mycroft")).1,
           "UserGeoLocation", "45.47885" ++ "," ++ "133.42825"⟩]
  ∧ resolveGeoTimes "45.47885" "133.42825" 5 (initialState "mycroft")
      = get_geolocation_id "45.47885" "133.42825" (initialState "mycroft") := by
  have h := c3_geolocation_dedup "45.47885" "133.42825" (initialState "mycroft")
  exact ⟨h.1 rfl, h.2.2.1 5⟩

/-! ### The flush contract -/

theorem persist_spec (fsOk : Bool) (s : AuditorState) :
    (s.bindings = [] → persist_bindings fsOk s = (none, s))
  ∧ (∀ e s', persist_bindings fsOk s = (some e, s') → s' = s)
  ∧ (∀ prev, s.session = some prev → s.bindings ≠ [] → fsOk = true →
      persist_bindings fsOk s = (none, { s with
        store := appendFile s.store (filePathOf prev)
          (csvRowsString (s.bindings.map bindingToRow)),
        savedLog := s.savedLog ++
          [Nat.repr s.bindings.length ++ " bindings saved to " ++ filePathOf prev],
        bindings := [] }))
  ∧ (s.bindings ≠ [] → fsOk = false → ∃ e, persist_bindings fsOk s = (some e, s)) := by
  refine ⟨?_, ?_, ?_, ?_⟩
  · intro hb
    simp [persist_bindings, hb]
  · intro e s' h
    unfold persist_bindings at h
    by_cases hb : s.bindings = []
    · simp [hb] at h
    · rw [if_neg hb] at h
      cases hsess : s.session with
      | none =>
        rw [hsess] at h
        simp only [Prod.mk.injEq] at h
        exact h.2.symm
      | some sess =>
        rw [hsess] at h
        by_cases hf : fsOk = true
        · simp [hf] at h
        · simp [eq_false_of_ne_true hf] at h
          exact h.2.symm
  · intro prev hsess hb hf
    subst hf
    unfold persist_bindings
    rw [if_neg hb, hsess]
    simp
  · intro hb hf
    subst hf
    unfold persist_bindings
    rw [if_neg hb]
    cases hsess : s.session with
    | none => exact ⟨.attributeError, rfl⟩
    | some sess => exact ⟨.storageError, by simp⟩

/-- C4: flushing with an empty buffer is a no-op returning the state
unchanged (no file touched, no log line); any failing flush (storage
failure, or the missing-session `AttributeError`) leaves the whole
state — in particular the buffer — intact; a successful flush appends
the buffer rows to the session's partition file, logs the count, and
only then empties the buffer. -/
theorem c4_flush_contract (fsOk : Bool) (s : AuditorState) :
    (s.bindings = [] → persist_bindings fsOk s = (none, s))
  ∧ (∀ e s', persist_bindings fsOk s = (some e, s') → s' = s)
  ∧ (∀ prev, s.session = some prev → s.bindings ≠ [] → fsOk = true →
      persist_bindings fsOk s = (none, { s with
        store := appendFile s.store (filePathOf prev)
          (csvRowsString (s.bindings.map bindingToRow)),
        savedLog := s.savedLog ++
          [Nat.repr s.bindings.length ++ " bindings saved to " ++ filePathOf prev],
        bindings := [] }))
  ∧ (s.bindings ≠ [] → fsOk = false → ∃ e, persist_bindings fsOk s = (some e, s)) :=
  persist_spec fsOk s

def sampleBinding : Binding :=
  Binding.userDatapoint
    ⟨"user_datapoint", "users/3259", "users/3259/geolocation/1",
     "UserGeoLocation", "45.47885,133.42825"⟩

/-- C4 witness: the three flush behaviours at concrete states — empty
no-op, failed write with the buffer intact, successful write after
which (and only after which) the buffer is empty. -/
theorem c4_flush_contract_witness :
    persist_bindings true (initialState "mycroft") = (none, initialState "mycroft")
  ∧ (∃ e, persist_bindings false
      { initialState "mycroft" with bindings := [sampleBinding], session := some ⟨"S", 0, 0⟩ }
      = (some e,
         { initialState "mycroft" with
           bindings := [sampleBinding], session := some ⟨"S", 0, 0⟩ }))
  ∧ persist_bindings true
      { initialState "mycroft" with bindings := [sampleBinding], session := some ⟨"S", 0, 0⟩ }
      = (none, { initialState "mycroft" with
          bindings := [],
          session := some ⟨"S", 0, 0⟩,
          store := appendFile [] (filePathOf ⟨"S", 0, 0⟩)
            (csvRowsString ([sampleBinding].map bindingToRow)),
          savedLog := ["1 bindings saved to " ++ filePathOf ⟨"S", 0, 0⟩] }) := by
  refine ⟨(c4_flush_contract true (initialState "mycroft")).1 rfl,
    (c4_flush_contract false _).2.2.2 (by simp) rfl, ?_⟩
  have h := (c4_flush_contract true
    { initialState "mycroft" with
      bindings := [sampleBinding], session := some ⟨"S", 0, 0⟩ }).2.2.1
    ⟨"S", 0, 0⟩ rfl (by simp) rfl
  exact h

/-! ### The session transition -/

/-- C2 counterexample: with a nonempty buffer and no previously tracked
session, observing a (differing) session does not skip the flush as the
claim states — `persist_bindings` raises `AttributeError`
(`self.session.touch_time` on `None`), the counters are not reset, the
caches are not cleared, and the new session is not adopted. -/
theorem c2_transition_counterexample :
    check_active_session ⟨"B", 0, 1⟩ true
        { initialState "mycroft" with bindings := [sampleBinding] }
      = (some PyError.attributeError,
         { initialState "mycroft" with bindings := [sampleBinding] }) := by
  rfl

/-- C2 (amended): on observing a session differing by identity from the
tracked one, the code flushes the buffer under the previous session's
identity, resets the counters, clears the utterance cache and adopts
the new session, in that order; the flush is skipped only when the
buffer is empty, and when the buffer is nonempty but no previous
session existed the transition fails with `AttributeError` before any
of the remaining steps. -/
theorem c2_transition (host : Session) (fsOk : Bool) (s : AuditorState)
    (hdiff : sameObject s.session host = false) :
    (s.bindings = [] →
      check_active_session host fsOk s =
        (none, { s with
          id_counters := some [], utterance_id_cache := [], session := some host }))
  ∧ (∀ prev, s.session = some prev → s.bindings ≠ [] → fsOk = true →
      check_active_session host fsOk s =
        (none, { s with
          store := appendFile s.store (filePathOf prev)
            (csvRowsString (s.bindings.map bindingToRow)),
          savedLog := s.savedLog ++
            [Nat.repr s.bindings.length ++ " bindings saved to " ++ filePathOf prev],
          bindings := [],
          id_counters := some [],
          utterance_id_cache := [],
          session := some host }))
  ∧ (s.session = none → s.bindings ≠ [] →
      check_active_session host fsOk s = (some PyError.attributeError, s)) := by
  refine ⟨?_, ?_, ?_⟩
  · intro hb
    unfold check_active_session
    rw [hdiff]
    rw [(persist_spec fsOk s).1 hb]
    simp
  · intro prev hsess hb hf
    unfold check_active_session
    rw [hdiff]
    rw [(persist_spec fsOk s).2.2.1 prev hsess hb hf]
    rfl
  · intro hsess hb
    unfold check_active_session
    rw [hdiff]
    unfold persist_bindings
    rw [if_neg hb, hsess]
    rfl

/-- C2 witness: the amended transition at concrete states — an
empty-buffer switch (flush skipped, counters reset, session adopted)
and a nonempty-buffer switch from a tracked session (flush under the
previous session's identity, then reset and adoption). -/
theorem c2_transition_witness :
    check_active_session ⟨"B", 86400, 1⟩ true
        { initialState "mycroft" with session := some ⟨"A", 0, 0⟩ }
      = (none, { initialState "mycroft" with
          id_counters := some [], utterance_id_cache := [],
          session := some ⟨"B", 86400, 1⟩ })
  ∧ check_active_session ⟨"B", 86400, 1⟩ true
        { initialState "mycroft" with
          session := some ⟨"A", 0, 0⟩, bindings := [sampleBinding] }
      = (none, { initialState "mycroft" with
          store := appendFile [] (filePathOf ⟨"A", 0, 0⟩)
            (csvRowsString ([sampleBinding].map bindingToRow)),
          savedLog := ["1 bindings saved to " ++ filePathOf ⟨"A", 0, 0⟩],
          bindings := [],
          id_counters := some [],
          utterance_id_cache := [],
          session := some ⟨"B", 86400, 1⟩ }) := by
  constructor
  · exact (c2_transition ⟨"B", 86400, 1⟩ true
      { initialState "mycroft" with session := some ⟨"A", 0, 0⟩ } rfl).1 rfl
  · exact (c2_transition ⟨"B", 86400, 1⟩ true
      { initialState "mycroft" with
        session := some ⟨"A", 0, 0⟩, bindings := [sampleBinding] } rfl).2.1
      ⟨"A", 0, 0⟩ rfl (by simp) rfl

/-! ### The audit request -/

/-- C5 counterexample: an audit request on the fresh state (zero
bindings stored or buffered) still performs both external-tool
invocations — the expansion collaborator is called on the empty corpus
and the narration collaborator on its result — before the fixed
fallback message is produced. -/
theorem c5_audit_counterexample :
    (handle_auditor_prov ⟨fun _ => "", fun _ => ""⟩ (initialState "mycroft")).2 ≠ []
  ∧ (handle_auditor_prov ⟨fun _ => "", fun _ => ""⟩ (initialState "mycroft")).2
      = [ToolCall.expandCall "", ToolCall.narrateCall ""]
  ∧ (handle_auditor_prov ⟨fun _ => "", fun _ => ""⟩ (initialState "mycroft")).1
      = ["No data was recorded in my log"] := by
  refine ⟨?_, by decide, by decide⟩
  decide

/-- C5 (amended): an audit request with zero recorded bindings (none
stored, none buffered) still invokes the expansion collaborator on the
empty corpus and then the narration collaborator; the fixed fallback
message is produced exactly when the narration output contains no
nonempty paragraph, and otherwise the narrated sentences are spoken. -/
theorem c5_audit_zero_bindings (tools : ExtTools) (s : AuditorState)
    (hb : s.bindings = []) (hst : s.store = []) :
    (handle_auditor_prov tools s).2
        = [ToolCall.expandCall "", ToolCall.narrateCall (tools.log2prov "")]
  ∧ (handle_auditor_prov tools s).1
      = (if ((pySplit (tools.narrate (tools.log2prov "")) "\n\n").map pyStrip).filter
              (fun x => x.length != 0) = []
         then ["No data was recorded in my log"]
         else ((pySplit (tools.narrate (tools.log2prov "")) "\n\n").map pyStrip).filter
              (fun x => x.length != 0)) := by
  have hcol : collect_bindings_lines s = "" := by
    simp [collect_bindings_lines, hb, hst]
  unfold handle_auditor_prov generate_narratives expand_provenance
  rw [hcol]
  by_cases hs' : ((pySplit (tools.narrate (tools.log2prov "")) "\n\n").map pyStrip).filter
      (fun x => x.length != 0) = []
  · simp [hs']
  · simp [hs']

/-- C5 witness: the amended behaviour at a concrete oracle whose
narration yields two paragraphs — both collaborators are invoked and
the two sentences are spoken instead of the fallback. -/
theorem c5_audit_zero_bindings_witness :
    (handle_auditor_prov ⟨fun _ => "provdoc", fun _ => "hello\n\nworld"⟩
        (initialState "mycroft")).2
      = [ToolCall.expandCall "", ToolCall.narrateCall "provdoc"]
  ∧ (handle_auditor_prov ⟨fun _ => "provdoc", fun _ => "hello\n\nworld"⟩
        (initialState "mycroft")).1
      = ["hello", "world"] := by
  have h := c5_audit_zero_bindings ⟨fun _ => "provdoc", fun _ => "hello\n\nworld"⟩
    (initialState "mycroft") rfl rfl
  refine ⟨h.1, ?_⟩
  rw [h.2]
  decide

/-! ### Per-handler effect lemmas -/

theorem get_id_preserves (k : String) (s : AuditorState) :
    (get_id k s).2.session = s.session ∧ (get_id k s).2.store = s.store ∧
    (get_id k s).2.bindings = s.bindings := by
  unfold get_id
  cases hc : s.id_counters with
  | none => exact ⟨rfl, rfl, rfl⟩
  | some cs =>
    cases hs : s.session with
    | none => exact ⟨rfl, rfl, rfl⟩
    | some sess => exact ⟨rfl, rfl, rfl⟩

theorem geo_preserves (lat lon : String) (s : AuditorState) :
    (get_geolocation_id lat lon s).2.session = s.session ∧
    (get_geolocation_id lat lon s).2.store = s.store := by
  unfold get_geolocation_id
  cases hl : lookupA s.geolocation_id_cache (lat, lon) with
  | some g => exact ⟨rfl, rfl⟩
  | none => exact ⟨rfl, rfl⟩

/-- The user identity carried by a binding: the `user` field of intent
and datapoint rows is the constant user, and a skill invocation's
datapoint reference (when present) lies under that user. -/
def carries_user : Binding → Prop
  | .intentMatching b => b.user = "users/3259"
  | .userDatapoint b => b.user = "users/3259"
  | .skillInvocation b => ∀ d, b.user_datapoint = some d → ∃ t, d = "users/3259/" ++ t

/-- Every identifier stored in the geolocation cache lies under the
constant user. -/
def GeoCachePrefixInv (s : AuditorState) : Prop :=
  ∀ kv ∈ s.geolocation_id_cache, ∃ t, kv.2 = "users/3259/" ++ t

theorem mint_prefix (s : AuditorState) (x : String) :
    get_user_data_id s "geolocation" ++ "/" ++ x
      = "users/3259/" ++ ("geolocation/" ++ x) := by
  have h0 : (("users/3259" ++ "/") ++ "geolocation") ++ "/"
      = "users/3259/" ++ "geolocation/" := by decide
  show ((get_user_id s ++ "/" ++ "geolocation") ++ "/") ++ x = _
  rw [show get_user_id s = "users/3259" from rfl, h0, String.append_assoc]

theorem lookupA_mem {α β : Type} [DecidableEq α] (l : List (α × β)) (k : α) (v : β)
    (h : lookupA l k = some v) : ∃ kv ∈ l, kv.2 = v := by
  induction l with
  | nil => simp [lookupA] at h
  | cons hd rest ih =>
    obtain ⟨q, w⟩ := hd
    by_cases hk : k = q
    · simp [lookupA, hk] at h
      exact ⟨(q, w), List.mem_cons_self _ _, by simp [h]⟩
    · simp [lookupA, hk] at h
      obtain ⟨kv, hm, hv⟩ := ih h
      exact ⟨kv, List.mem_cons_of_mem _ hm, hv⟩

theorem geo_user (lat lon : String) (s : AuditorState) (hinv : GeoCachePrefixInv s) :
    (∃ t, (get_geolocation_id lat lon s).1 = "users/3259/" ++ t)
  ∧ GeoCachePrefixInv (get_geolocation_id lat lon s).2
  ∧ ∃ new, (get_geolocation_id lat lon s).2.bindings = s.bindings ++ new ∧
      ∀ b ∈ new, carries_user b := by
  unfold get_geolocation_id
  cases hl : lookupA s.geolocation_id_cache (lat, lon) with
  | some g =>
    refine ⟨?_, hinv, [], by simp, by simp⟩
    obtain ⟨kv, hm, hv⟩ := lookupA_mem _ _ _ hl
    obtain ⟨t, ht⟩ := hinv kv hm
    exact ⟨t, by rw [← hv, ht]⟩
  | none =>
    refine ⟨⟨"geolocation/" ++ Nat.repr (s.geolocation_id_cache.length + 1),
        mint_prefix s _⟩, ?_, ?_⟩
    · intro kv hm
      rcases mem_setA _ _ _ _ hm with hold | heq
      · exact hinv kv hold
      · refine ⟨"geolocation/" ++ Nat.repr (s.geolocation_id_cache.length + 1), ?_⟩
        rw [heq]
        exact mint_prefix s _
    · refine ⟨[Binding.userDatapoint
        ⟨"user_datapoint", get_user_id s,
         get_user_data_id s "geolocation" ++ "/" ++
           Nat.repr (s.geolocation_id_cache.length + 1),
         "UserGeoLocation", lat ++ "," ++ lon⟩], rfl, ?_⟩
      intro b hb
      simp at hb
      subst hb
      exact rfl

theorem handler_log_intent_effect (msg : IntentMessage) (s : AuditorState) :
    (handler_log_intent msg s).2.session = s.session ∧
    (handler_log_intent msg s).2.store = s.store ∧
    ∃ new, (handler_log_intent msg s).2.bindings = s.bindings ++ new ∧
      ∀ b ∈ new, carries_user b := by
  have hg := get_id_preserves "intent" s
  unfold handler_log_intent
  split
  · rename_i skill_id intent_type houter
    split
    · rename_i e s1 heq
      rw [heq] at hg
      dsimp only at hg
      exact ⟨hg.1, hg.2.1, [], by simp [hg.2.2], by simp⟩
    · rename_i intent_id s1 heq
      rw [heq] at hg
      dsimp only at hg
      dsimp only
      split
      · exact ⟨hg.1, hg.2.1, [], by simp [hg.2.2], by simp⟩
      · rename_i utterance_id hu
        refine ⟨hg.1, hg.2.1,
          [Binding.intentMatching
            ⟨"intent_matching", "users/3259", s1.identity_uuid,
             utterance_id, msg.utterance, intent_id,
             skill_id ++ "/" ++ intent_type, skill_id,
             jsonObj (removeKey (removeKey msg.extra "intent_type") "__tags__"),
             isoTimestamp msg.timestamp⟩], ?_, ?_⟩
        · show s1.bindings ++ _ = _
          rw [hg.2.2]
          rfl
        · intro bb hbb
          simp at hbb
          subst hbb
          exact rfl
  · exact ⟨rfl, rfl, [], by simp, by simp⟩

theorem handler_log_bindings_preserves (msg : SkillMessage) (rh sh ah : String)
    (d : Nat) (s : AuditorState) :
    (handler_log_bindings msg rh sh ah d s).session = s.session ∧
    (handler_log_bindings msg rh sh ah d s).store = s.store := by
  unfold handler_log_bindings
  exact ⟨(geo_preserves msg.latitude msg.longitude s).1,
    (geo_preserves msg.latitude msg.longitude s).2⟩

theorem handler_log_bindings_user (msg : SkillMessage) (rh sh ah : String)
    (d : Nat) (s : AuditorState) (hinv : GeoCachePrefixInv s) :
    ∃ new, (handler_log_bindings msg rh sh ah d s).bindings = s.bindings ++ new ∧
      (∀ b ∈ new, carries_user b) ∧
      GeoCachePrefixInv (handler_log_bindings msg rh sh ah d s) := by
  obtain ⟨⟨t, ht⟩, hinv', ⟨new, hnew, hcu⟩⟩ := geo_user msg.latitude msg.longitude s hinv
  unfold handler_log_bindings
  refine ⟨new ++ [Binding.skillInvocation
      ⟨"skill_invocation", msg.sender, msg.service.drop 8,
       lookupA s.intent_id_cache msg.sender, none,
       some (get_geolocation_id msg.latitude msg.longitude s).1,
       "req/" ++ rh, "APIRequest", none, isoTimestamp msg.timestamp,
       "res/" ++ sh, "APIResponse", none, isoTimestamp (msg.timestamp + d),
       "act/" ++ ah⟩], ?_, ?_, ?_⟩
  · show (get_geolocation_id msg.latitude msg.longitude s).2.bindings ++ _ = _
    rw [hnew, List.append_assoc]
  · intro bb hbb
    rw [List.mem_append] at hbb
    rcases hbb with hbb | hbb
    · exact hcu bb hbb
    · simp at hbb
      subst hbb
      intro d' hd'
      simp at hd'
      exact ⟨t, hd' ▸ ht⟩
  · exact hinv'

theorem check_active_session_ok (host : Session) (fsOk : Bool) (s s1 : AuditorState)
    (h : check_active_session host fsOk s = (none, s1)) :
    sameObject s1.session host = true := by
  unfold check_active_session at h
  by_cases hsame : sameObject s.session host = true
  · rw [hsame] at h
    simp at h
    rw [← h]
    exact hsame
  · rw [eq_false_of_ne_true hsame] at h
    simp only [Bool.false_eq_true, if_false] at h
    cases hp : persist_bindings fsOk s with
    | mk eo s2 =>
      rw [hp] at h
      cases eo with
      | some e => simp at h
      | none =>
        simp only [Prod.mk.injEq, true_and] at h
        rw [← h]
        show (host.oid == host.oid) = true
        simp

/-! ### The session-transition check and the notification handlers -/

/-- C6 counterexample: a skill-invocation notification arriving while
the host session (`B`, identity 1) differs from the tracked session
(`A`, identity 0) performs no session transition — the handler never
consults the session manager, the tracked session stays `A`, nothing is
flushed — and the two bindings it buffers are persisted into `A`'s
partition file by the next utterance notification, although they arose
under `B`. -/
theorem c6_check_counterexample :
    (handler_log_bindings ⟨"45.47885", "133.42825", "weather-skill",
          "https://api.openweathermap.org", 100⟩ "r1" "r2" "r3" 1
        { initialState "mycroft" with
          session := some ⟨"A", 0, 0⟩, id_counters := some [] }).session
      = some ⟨"A", 0, 0⟩
  ∧ (handler_log_bindings ⟨"45.47885", "133.42825", "weather-skill",
          "https://api.openweathermap.org", 100⟩ "r1" "r2" "r3" 1
        { initialState "mycroft" with
          session := some ⟨"A", 0, 0⟩, id_counters := some [] }).store = []
  ∧ (handler_log_bindings ⟨"45.47885", "133.42825", "weather-skill",
          "https://api.openweathermap.org", 100⟩ "r1" "r2" "r3" 1
        { initialState "mycroft" with
          session := some ⟨"A", 0, 0⟩, id_counters := some [] }).bindings.length = 2
  ∧ ((handler_utterance ⟨"B", 86400, 1⟩ true ["hello"]
        (handler_log_bindings ⟨"45.47885", "133.42825", "weather-skill",
            "https://api.openweathermap.org", 100⟩ "r1" "r2" "r3" 1
          { initialState "mycroft" with
            session := some ⟨"A", 0, 0⟩, id_counters := some [] })).2.store).map
      Prod.fst = ["bindings/1970/1/1/A.csv"] := by
  refine ⟨rfl, rfl, rfl, ?_⟩
  decide

/-- C6 (amended): the session-transition check runs only on utterance
notifications.  The intent-matching and skill-invocation handlers never
consult the session manager: they leave the tracked session and the
store unchanged whatever the host-reported session is, so their
bindings are scoped to the session observed at the most recent
utterance; a successful utterance notification leaves the tracked
session identical (by object identity) to the host-reported one. -/
theorem c6_session_check :
    (∀ (msg : SkillMessage) (rh sh ah : String) (d : Nat) (s : AuditorState),
      (handler_log_bindings msg rh sh ah d s).session = s.session ∧
      (handler_log_bindings msg rh sh ah d s).store = s.store)
  ∧ (∀ (msg : IntentMessage) (s : AuditorState),
      (handler_log_intent msg s).2.session = s.session ∧
      (handler_log_intent msg s).2.store = s.store)
  ∧ (∀ (host : Session) (fsOk : Bool) (utts : List String) (s s' : AuditorState),
      handler_utterance host fsOk utts s = (none, s') →
      sameObject s'.session host = true) := by
  refine ⟨?_, ?_, ?_⟩
  · intro msg rh sh ah d s
    exact handler_log_bindings_preserves msg rh sh ah d s
  · intro msg s
    exact ⟨(handler_log_intent_effect msg s).1, (handler_log_intent_effect msg s).2.1⟩
  · intro host fsOk utts s s' h
    unfold handler_utterance at h
    cases hchk : check_active_session host fsOk s with
    | mk eo s1 =>
      rw [hchk] at h
      cases eo with
      | some e => simp at h
      | none =>
        dsimp only at h
        have hsess1 := check_active_session_ok host fsOk s s1 hchk
        cases hid : get_id "utterance" s1 with
        | mk r s2 =>
          rw [hid] at h
          have hs2 : s2.session = s1.session := by
            have := get_id_preserves "utterance" s1
            rw [hid] at this
            exact this.1
          cases r with
          | error e => simp at h
          | ok uid =>
            simp only [Prod.mk.injEq, true_and] at h
            rw [← h]
            show sameObject s2.session host = true
            rw [hs2]
            exact hsess1

/-- C6 witness: the amended statement at concrete inputs — a
skill-invocation handler call leaves the tracked session and store
untouched, and a concrete utterance notification ends with the tracked
session identical to the host-reported one. -/
theorem c6_session_check_witness :
    ((handler_log_bindings ⟨"1.0", "2.0", "some-skill", "https://svc.example", 0⟩
        "a" "b" "c" 0 (initialState "mycroft")).session
      = (initialState "mycroft").session)
  ∧ sameObject ({ initialState "mycroft" with
        id_counters := some [("utterance", 1)],
        utterance_id_cache := [(["hello"], "utterance/B/1")],
        session := some ⟨"B", 0, 1⟩ } : AuditorState).session ⟨"B", 0, 1⟩ = true := by
  constructor
  · exact (c6_session_check.1 ⟨"1.0", "2.0", "some-skill", "https://svc.example", 0⟩
      "a" "b" "c" 0 (initialState "mycroft")).1
  · exact c6_session_check.2.2 ⟨"B", 0, 1⟩ true ["hello"] (initialState "mycroft") _
      (by decide)

/-! ### The constant user identity -/

/-- C9: `get_user_id` returns the fixed string `users/3259` on every
call, whatever the state; every binding appended by the geolocation
resolver, the intent handler or the skill-invocation handler carries
that user — the `user` field of intent and datapoint rows equals it,
and the datapoint identifier of a skill row lies under it — and the
geolocation cache keeps only identifiers under it. -/
theorem c9_constant_user :
    (∀ s : AuditorState, get_user_id s = "users/3259")
  ∧ (∀ (lat lon : String) (s : AuditorState), GeoCachePrefixInv s →
      ∃ new, (get_geolocation_id lat lon s).2.bindings = s.bindings ++ new ∧
        (∀ b ∈ new, carries_user b) ∧
        GeoCachePrefixInv (get_geolocation_id lat lon s).2)
  ∧ (∀ (msg : IntentMessage) (s : AuditorState),
      ∃ new, (handler_log_intent msg s).2.bindings = s.bindings ++ new ∧
        ∀ b ∈ new, carries_user b)
  ∧ (∀ (msg : SkillMessage) (rh sh ah : String) (d : Nat) (s : AuditorState),
      GeoCachePrefixInv s →
      ∃ new, (handler_log_bindings msg rh sh ah d s).bindings = s.bindings ++ new ∧
        (∀ b ∈ new, carries_user b) ∧
        GeoCachePrefixInv (handler_log_bindings msg rh sh ah d s)) := by
  refine ⟨fun _ => rfl, ?_, ?_, ?_⟩
  · intro lat lon s hinv
    obtain ⟨_, hinv', new, hnew, hcu⟩ := geo_user lat lon s hinv
    exact ⟨new, hnew, hcu, hinv'⟩
  · intro msg s
    exact (handler_log_intent_effect msg s).2.2
  · intro msg rh sh ah d s hinv
    obtain ⟨new, hnew, hcu, hinv'⟩ := handler_log_bindings_user msg rh sh ah d s hinv
    exact ⟨new, hnew, hcu, hinv'⟩

/-- C9 witness: at concrete inputs from the fresh state (whose empty
geolocation cache trivially satisfies the invariant), the minted
datapoint binding and the skill-invocation binding carry the constant
user `users/3259`. -/
theorem c9_constant_user_witness :
    get_user_id (initialState "mycroft") = "users/3259"
  ∧ (∃ new, (get_geolocation_id "45.47885" "133.42825"
        (initialState "mycroft")).2.bindings = [] ++ new ∧
      (∀ b ∈ new, carries_user b) ∧
      GeoCachePrefixInv (get_geolocation_id "45.47885" "133.42825"
        (initialState "mycroft")).2)
  ∧ (∃ new, (handler_log_bindings ⟨"45.47885", "133.42825", "weather-skill",
          "https://api.openweathermap.org", 100⟩ "r1" "r2" "r3" 1
        (initialState "mycroft")).bindings = [] ++ new ∧
      (∀ b ∈ new, carries_user b) ∧
      GeoCachePrefixInv (handler_log_bindings ⟨"45.47885", "133.42825", "weather-skill",
          "https://api.openweathermap.org", 100⟩ "r1" "r2" "r3" 1
        (initialState "mycroft"))) := by
  have hinv : GeoCachePrefixInv (initialState "mycroft") := by
    intro kv hm
    exact absurd hm (List.not_mem_nil kv)
  exact ⟨c9_constant_user.1 (initialState "mycroft"),
    c9_constant_user.2.1 "45.47885" "133.42825" (initialState "mycroft") hinv,
    c9_constant_user.2.2.2 ⟨"45.47885", "133.42825", "weather-skill",
      "https://api.openweathermap.org", 100⟩ "r1" "r2" "r3" 1
      (initialState "mycroft") hinv⟩

/-! ### The skill-invocation service field -/

/-- C10: the skill-invocation binding appended by `handler_log_bindings`
has its `service` field equal to the notification's service URL with
its first 8 characters removed (`service_url[8:]`), unconditionally —
for every URL, including ones that do not begin with `https://` (and
URLs shorter than 8 characters, which leave the field empty). -/
theorem c10_service_field (msg : SkillMessage) (reqHex resHex actHex : String)
    (delaySec : Nat) (s : AuditorState) :
    ∃ sb : SkillInvocationBinding,
      (handler_log_bindings msg reqHex resHex actHex delaySec s).bindings.getLast?
          = some (Binding.skillInvocation sb)
        ∧ sb.service = msg.service.drop 8 := by
  unfold handler_log_bindings
  dsimp only
  refine ⟨⟨"skill_invocation", msg.sender, msg.service.drop 8,
      lookupA s.intent_id_cache msg.sender, none,
      some (get_geolocation_id msg.latitude msg.longitude s).1,
      "req/" ++ reqHex, "APIRequest", none, isoTimestamp msg.timestamp,
      "res/" ++ resHex, "APIResponse", none, isoTimestamp (msg.timestamp + delaySec),
      "act/" ++ actHex⟩, ?_, rfl⟩
  exact List.getLast?_concat _

/-! ### Shutdown -/

/-- C8, failing input: one skill-invocation notification arrives before
any session has ever been tracked (fully reachable from the fresh
state), leaving two bindings buffered and `session = None`; the final
shutdown flush then raises `AttributeError` (`self.session.touch_time`
on `None`) and persists nothing — the buffered bindings are lost. -/
theorem c8_shutdown_crash :
    (shutdown true (handler_log_bindings ⟨"45.47885", "133.42825", "weather-skill",
        "https://api.openweathermap.org", 100⟩ "aa" "bb" "cc" 1
        (initialState "mycroft"))).1 = some PyError.attributeError
  ∧ (shutdown true (handler_log_bindings ⟨"45.47885", "133.42825", "weather-skill",
        "https://api.openweathermap.org", 100⟩ "aa" "bb" "cc" 1
        (initialState "mycroft"))).2.store = []
  ∧ (shutdown true (handler_log_bindings ⟨"45.47885", "133.42825", "weather-skill",
        "https://api.openweathermap.org", 100⟩ "aa" "bb" "cc" 1
        (initialState "mycroft"))).2.bindings.length = 2 := by
  refine ⟨rfl, rfl, rfl⟩

/-! ### The ledger round trip -/

theorem appendFile_appendFile (st : List (String × String)) (p a b : String) :
    appendFile (appendFile st p a) p b = appendFile st p (a ++ b) := by
  induction st with
  | nil => simp [appendFile, String.append_assoc]
  | cons f rest ih =>
    obtain ⟨q, d⟩ := f
    by_cases hp : p = q
    · simp [appendFile, hp, String.append_assoc]
    · simp [appendFile, hp, ih]

theorem state_eta_bindings (s : AuditorState) (h : s.bindings = []) :
    ({ s with bindings := [] } : AuditorState) = s := by
  rcases s with ⟨iu, bs, ss, ic, uc, gc, tc, st, lg⟩
  simp only at h
  subst h
  rfl

/-- One append-then-flush cycle: the buffer is loaded with `b` (the
bindings appended since the previous flush, in arrival order) and
`persist_bindings` is run. -/
def flushStep (s : AuditorState) (b : List Binding) : AuditorState :=
  (persist_bindings true { s with bindings := b }).2

/-- The state after a sequence of append-then-flush cycles under one
tracked session, starting from a fresh store. -/
def flushedState (identity_uuid : String) (sess : Session)
    (batches : List (List Binding)) : AuditorState :=
  batches.foldl flushStep
    { initialState identity_uuid with session := some sess, id_counters := some [] }

theorem foldFlush (sess : Session) :
    ∀ (batches : List (List Binding)) (s : AuditorState),
      s.session = some sess → s.bindings = [] →
      (batches.foldl flushStep s).session = some sess ∧
      (batches.foldl flushStep s).bindings = [] ∧
      (batches.foldl flushStep s).store =
        (if batches.flatten = [] then s.store
         else appendFile s.store (filePathOf sess)
           (csvRowsString ((batches.flatten).map bindingToRow))) := by
  intro batches
  induction batches with
  | nil =>
    intro s hs hb
    exact ⟨hs, hb, by simp⟩
  | cons b rest ih =>
    intro s hs hb
    rw [List.foldl_cons]
    by_cases hb0 : b = []
    · subst hb0
      have hstep : flushStep s [] = s := by
        unfold flushStep
        rw [(persist_spec true { s with bindings := ([] : List Binding) }).1 rfl]
        exact state_eta_bindings s hb
      rw [hstep]
      have := ih s hs hb
      simpa using this
    · have hstep : flushStep s b = { s with
          store := appendFile s.store (filePathOf sess)
            (csvRowsString (b.map bindingToRow)),
          savedLog := s.savedLog ++
            [Nat.repr b.length ++ " bindings saved to " ++ filePathOf sess],
          bindings := [] } := by
        unfold flushStep
        rw [(persist_spec true { s with bindings := b }).2.2.1 sess hs hb0 rfl]
      rw [hstep]
      obtain ⟨h1, h2, h3⟩ := ih { s with
          store := appendFile s.store (filePathOf sess)
            (csvRowsString (b.map bindingToRow)),
          savedLog := s.savedLog ++
            [Nat.repr b.length ++ " bindings saved to " ++ filePathOf sess],
          bindings := [] } hs rfl
      refine ⟨h1, h2, ?_⟩
      rw [h3]
      by_cases hrest : rest.flatten = []
      · simp only [hrest, if_true]
        have : (b :: rest).flatten = b := by simp [hrest]
        rw [this, if_neg hb0]
      · have hne : (b :: rest).flatten ≠ [] := by
          simp only [List.flatten_cons]
          intro hc
          exact hb0 (List.append_eq_nil.mp hc).1
        rw [if_neg hrest, if_neg hne]
        show appendFile (appendFile s.store _ _) _ _ = _
        rw [appendFile_appendFile]
        rw [← csvRowsString_append, ← List.map_append, ← List.flatten_cons]

theorem collect_eq (s : AuditorState) :
    collect_bindings_lines s =
      (s.store.foldl (fun acc f => acc ++ f.2) "") ++
        csvRowsString (s.bindings.map bindingToRow) := by
  unfold collect_bindings_lines get_csv_bindings_str
  by_cases hb : s.bindings = []
  · rw [if_pos hb, hb]
    rfl
  · rw [if_neg hb]

/-- C7: writing any sequence of binding batches through
`persist_bindings` under one session and reading everything back via
`collect_bindings_lines` yields — after CSV parsing — exactly the rows
of every previously flushed binding followed by the current unflushed
buffer, field for field, in append order. -/
theorem c7_round_trip (identity_uuid : String) (sess : Session)
    (batches : List (List Binding)) (buf : List Binding) :
    csvParse (collect_bindings_lines
      { flushedState identity_uuid sess batches with bindings := buf })
      = (batches.flatten ++ buf).map bindingToRow := by
  obtain ⟨hs, hb, hst⟩ := foldFlush sess batches
    { initialState identity_uuid with session := some sess, id_counters := some [] }
    rfl rfl
  rw [collect_eq]
  show csvParse (((flushedState identity_uuid sess batches).store.foldl
      (fun acc f => acc ++ f.2) "") ++ csvRowsString (buf.map bindingToRow)) = _
  rw [show (flushedState identity_uuid sess batches).store
      = (batches.foldl flushStep { initialState identity_uuid with
          session := some sess, id_counters := some [] }).store from rfl]
  rw [hst]
  by_cases hflat : batches.flatten = []
  · rw [if_pos hflat, hflat]
    show csvParse ("" ++ csvRowsString (buf.map bindingToRow)) = _
    rw [show ("" ++ csvRowsString (buf.map bindingToRow))
        = csvRowsString (buf.map bindingToRow) from rfl]
    rw [csvParse_csvRowsString]
    simp
  · rw [if_neg hflat]
    show csvParse (((appendFile [] (filePathOf sess)
        (csvRowsString ((batches.flatten).map bindingToRow))).foldl
        (fun acc f => acc ++ f.2) "") ++ csvRowsString (buf.map bindingToRow)) = _
    rw [show appendFile [] (filePathOf sess)
        (csvRowsString ((batches.flatten).map bindingToRow))
        = [(filePathOf sess, csvRowsString ((batches.flatten).map bindingToRow))]
        from rfl]
    rw [show (([(filePathOf sess, csvRowsString ((batches.flatten).map bindingToRow))] :
        List (String × String)).foldl (fun acc f => acc ++ f.2) "")
        = "" ++ csvRowsString ((batches.flatten).map bindingToRow) from rfl]
    rw [show ("" ++ csvRowsString ((batches.flatten).map bindingToRow))
        = csvRowsString ((batches.flatten).map bindingToRow) from rfl]
    rw [← csvRowsString_append, ← List.map_append, csvParse_csvRowsString]
